import Mathlib

/-!
Verification development for the OptiInstruction frontend upload core.

The repository is a TypeScript (React Native / Expo) client.  The parts the
claims talk about are embedded shallowly below:

- `src/api/schemas.ts` — zod schemas for the init response and the status
  response, and the `parseMarkersParam` helper (the second fragment of that
  file).  JSON payloads become the inductive `Json`; a zod `parse` becomes a
  function `Json -> Except (List ZodIssue) _`.
- `src/api/client.ts` — `initRecording` (HTTP status gate plus schema parse).
- `src/upload/uploadVideo.ts` — the XMLHttpRequest transfer is embedded as an
  event semantics: a run of the transfer is a list of handler events
  (`load`, `errorEvt`, `abortEvt`, `sendThrow`, `progress`), and the handlers
  of the source are the functions `eventSettlement`, `settleStep` and
  `progressEmit` folded over that list.
- `src/unnamed/part_001` (UploadScreen) — `startUploadFlow`, embedded as a
  pure function from an environment describing the results of the external
  calls (file inspection, init, upload transfer, completion) to the terminal
  state, the recorded error message, and the trace of network calls issued.
- the ResultScreen of `src/upload/uploadVideo.ts` (second fragment) — the
  `refetchInterval` callback given to the query library, plus a driver
  `pollRun` for the documented interval-refetch semantics of that library
  (data keeps the last successful response; a tick issues a request only
  while the callback returns a number).

Machine numbers are modelled as `Nat` / `Int` / `Rat`; a JavaScript number
that may be NaN is `Option Rat` with `none` for NaN.
-/

/-! ## JSON values and zod issues (src/api/schemas.ts) -/

/-- JSON values as produced by `response.json()` / `JSON.parse`.  An absent
object field is modelled by the key not being present in the field list; the
JavaScript `undefined` therefore never appears as a value. -/
inductive Json where
  | null : Json
  | bool (b : Bool) : Json
  | num (q : ℚ) : Json
  | str (s : String) : Json
  | arr (xs : List Json) : Json
  | obj (fields : List (String × Json)) : Json

/-- First binding of a key in a JSON object, as JavaScript property lookup. -/
def lookupField (fields : List (String × Json)) (name : String) : Option Json :=
  match fields with
  | [] => none
  | (k, v) :: rest => if k = name then some v else lookupField rest name

/-- One zod validation issue: the path of the offending field and a message.
A failed `schema.parse` throws a ZodError carrying a nonempty list of these. -/
structure ZodIssue where
  path : List String
  message : String
deriving Repr, DecidableEq

/-- Characters allowed after the first character of a URL scheme. -/
def isSchemeChar (c : Char) : Bool :=
  c.isAlphanum || c = '+' || c = '-' || c = '.'

/-- Model of the check behind `z.string().url()`: zod accepts a string iff
the WHATWG `new URL(value)` constructor accepts it, which requires an
absolute URL — a scheme (ALPHA followed by ALPHA / DIGIT / `+` / `-` / `.`)
terminated by a colon. -/
def isAbsoluteUrl (s : String) : Bool :=
  let cs := s.data
  let scheme := cs.takeWhile (fun c => c ≠ ':')
  decide (scheme.length < cs.length) &&
    (match scheme with
     | [] => false
     | c :: rest => c.isAlpha && rest.all isSchemeChar)

/-- Issues of an `Except`-valued field parse, empty when the parse succeeded. -/
def issuesOf {α : Type} : Except ZodIssue α → List ZodIssue
  | .ok _ => []
  | .error i => [i]

/-- Issues of a parse that already collects lists of issues. -/
def issueListOf {α : Type} : Except (List ZodIssue) α → List ZodIssue
  | .ok _ => []
  | .error is => is

/-- Required string field, as `z.string()` inside `z.object`. -/
def parseStringField (fields : List (String × Json)) (name : String) :
    Except ZodIssue String :=
  match lookupField fields name with
  | none => .error ⟨[name], "Required"⟩
  | some (Json.str s) => .ok s
  | some _ => .error ⟨[name], "Expected string"⟩

/-- Required string field with the url refinement, as `z.string().url()`. -/
def parseUrlField (fields : List (String × Json)) (name : String) :
    Except ZodIssue String :=
  match lookupField fields name with
  | none => .error ⟨[name], "Required"⟩
  | some (Json.str s) =>
      if isAbsoluteUrl s then .ok s else .error ⟨[name], "Invalid url"⟩
  | some _ => .error ⟨[name], "Expected string"⟩

/-- Optional string field, as `z.string().optional()`: an absent field is
accepted as `none`; a present field must be a string. -/
def parseOptStringField (fields : List (String × Json)) (name : String) :
    Except ZodIssue (Option String) :=
  match lookupField fields name with
  | none => .ok none
  | some (Json.str s) => .ok (some s)
  | some _ => .error ⟨[name], "Expected string"⟩

/-- Optional url field, as `z.string().url().optional()`. -/
def parseOptUrlField (fields : List (String × Json)) (name : String) :
    Except ZodIssue (Option String) :=
  match lookupField fields name with
  | none => .ok none
  | some (Json.str s) =>
      if isAbsoluteUrl s then .ok (some s) else .error ⟨[name], "Invalid url"⟩
  | some _ => .error ⟨[name], "Expected string"⟩

/-- Required number field, as `z.number()`. -/
def parseNumberField (fields : List (String × Json)) (name : String) :
    Except ZodIssue ℚ :=
  match lookupField fields name with
  | none => .error ⟨[name], "Required"⟩
  | some (Json.num q) => .ok q
  | some _ => .error ⟨[name], "Expected number"⟩

/-- Entries of a `z.record(z.string())` object: every value must be a string. -/
def parseStringRecord (name : String) :
    List (String × Json) → Except ZodIssue (List (String × String))
  | [] => .ok []
  | (k, Json.str v) :: rest =>
      match parseStringRecord name rest with
      | .ok tail => .ok ((k, v) :: tail)
      | .error i => .error i
  | (_, _) :: _ => .error ⟨[name], "Expected string"⟩

/-- Optional headers field, as `z.record(z.string()).optional()`. -/
def parseHeadersField (fields : List (String × Json)) :
    Except ZodIssue (Option (List (String × String))) :=
  match lookupField fields "headers" with
  | none => .ok none
  | some (Json.obj hs) =>
      match parseStringRecord "headers" hs with
      | .ok entries => .ok (some entries)
      | .error i => .error i
  | some _ => .error ⟨["headers"], "Expected object"⟩

/-- Typed init response, as `z.infer<typeof initRecordingResponseSchema>`. -/
structure InitRecordingResponse where
  recordingId : String
  uploadUrl : String
  headers : Option (List (String × String))
deriving Repr, DecidableEq

/-- Model of `initRecordingResponseSchema.parse`: the payload must be an
object with `recordingId : z.string()`, `uploadUrl : z.string().url()` and
optional `headers : z.record(z.string())`; on mismatch the issues of all
failing fields are collected, as zod object parsing does. -/
def initRecordingResponseSchema (j : Json) :
    Except (List ZodIssue) InitRecordingResponse :=
  match j with
  | Json.obj fields =>
      match parseStringField fields "recordingId",
            parseUrlField fields "uploadUrl",
            parseHeadersField fields with
      | .ok rid, .ok url, .ok hdrs => .ok ⟨rid, url, hdrs⟩
      | r₁, r₂, r₃ => .error (issuesOf r₁ ++ issuesOf r₂ ++ issuesOf r₃)
  | _ => .error [⟨[], "Expected object"⟩]

/-- Processing status enum, as the `z.enum([...])` of `recordingStatusSchema`. -/
inductive RecStatus where
  | CREATED | UPLOADING | UPLOADED | PROCESSING | COMPLETED | FAILED
deriving Repr, DecidableEq

/-- Enum decoding used by the status field: only the six exact strings of the
`z.enum` are accepted. -/
def statusOfString (s : String) : Option RecStatus :=
  if s = "CREATED" then some .CREATED
  else if s = "UPLOADING" then some .UPLOADING
  else if s = "UPLOADED" then some .UPLOADED
  else if s = "PROCESSING" then some .PROCESSING
  else if s = "COMPLETED" then some .COMPLETED
  else if s = "FAILED" then some .FAILED
  else none

/-- Status enum field of `recordingStatusSchema`. -/
def parseStatusField (fields : List (String × Json)) :
    Except ZodIssue RecStatus :=
  match lookupField fields "status" with
  | none => .error ⟨["status"], "Required"⟩
  | some (Json.str s) =>
      match statusOfString s with
      | some st => .ok st
      | none => .error ⟨["status"], "Invalid enum value"⟩
  | some _ => .error ⟨["status"], "Expected string"⟩

/-- Typed evidence record, as `z.infer` of `evidenceSchema`. -/
structure Evidence where
  transcriptSnippet : Option String
  keyframeUrl : Option String
deriving Repr, DecidableEq

/-- Typed step record, as `z.infer<typeof recordingStepSchema>`. -/
structure RecordingStep where
  index : ℚ
  startSec : ℚ
  endSec : ℚ
  title : String
  description : String
  evidence : Option Evidence
deriving Repr, DecidableEq

/-- Typed status response, as `z.infer<typeof recordingStatusSchema>`. -/
structure RecordingStatusResponse where
  recordingId : String
  status : RecStatus
  error : Option String
  steps : Option (List RecordingStep)
deriving Repr, DecidableEq

/-- Model of the optional `evidenceSchema` field of a step: absent is
accepted as `none`; present must be an object with optional
`transcriptSnippet : z.string()` and optional `keyframeUrl : z.string().url()`. -/
def parseEvidenceField (fields : List (String × Json)) :
    Except (List ZodIssue) (Option Evidence) :=
  match lookupField fields "evidence" with
  | none => .ok none
  | some (Json.obj efs) =>
      match parseOptStringField efs "transcriptSnippet",
            parseOptUrlField efs "keyframeUrl" with
      | .ok t, .ok k => .ok (some ⟨t, k⟩)
      | r₁, r₂ => .error (issuesOf r₁ ++ issuesOf r₂)
  | some _ => .error [⟨["evidence"], "Expected object"⟩]

/-- Model of `recordingStepSchema.parse` on one element of the steps array. -/
def recordingStepSchema (j : Json) : Except (List ZodIssue) RecordingStep :=
  match j with
  | Json.obj fields =>
      match parseNumberField fields "index",
            parseNumberField fields "startSec",
            parseNumberField fields "endSec",
            parseStringField fields "title",
            parseStringField fields "description",
            parseEvidenceField fields with
      | .ok i, .ok s, .ok e, .ok t, .ok d, .ok ev => .ok ⟨i, s, e, t, d, ev⟩
      | r₁, r₂, r₃, r₄, r₅, r₆ =>
          .error (issuesOf r₁ ++ issuesOf r₂ ++ issuesOf r₃ ++ issuesOf r₄ ++
            issuesOf r₅ ++ issueListOf r₆)
  | _ => .error [⟨[], "Expected object"⟩]

/-- Element-wise parse of `z.array(recordingStepSchema)`: every element is
parsed and the issues of all failing elements are collected. -/
def parseStepsArray (xs : List Json) : Except (List ZodIssue) (List RecordingStep) :=
  match xs with
  | [] => .ok []
  | j :: rest =>
      match recordingStepSchema j, parseStepsArray rest with
      | .ok st, .ok tail => .ok (st :: tail)
      | r₁, r₂ => .error (issueListOf r₁ ++ issueListOf r₂)

/-- Optional steps field, as `z.array(recordingStepSchema).optional()`. -/
def parseStepsField (fields : List (String × Json)) :
    Except (List ZodIssue) (Option (List RecordingStep)) :=
  match lookupField fields "steps" with
  | none => .ok none
  | some (Json.arr xs) =>
      match parseStepsArray xs with
      | .ok steps => .ok (some steps)
      | .error is => .error is
  | some _ => .error [⟨["steps"], "Expected array"⟩]

/-- Model of `recordingStatusSchema.parse`: an object with
`recordingId : z.string()`, the status enum, optional `error : z.string()`
and optional `steps`; issues of all failing fields are collected. -/
def recordingStatusSchema (j : Json) :
    Except (List ZodIssue) RecordingStatusResponse :=
  match j with
  | Json.obj fields =>
      match parseStringField fields "recordingId",
            parseStatusField fields,
            parseOptStringField fields "error",
            parseStepsField fields with
      | .ok rid, .ok st, .ok err, .ok steps => .ok ⟨rid, st, err, steps⟩
      | r₁, r₂, r₃, r₄ =>
          .error (issuesOf r₁ ++ issuesOf r₂ ++ issuesOf r₃ ++ issueListOf r₄)
  | _ => .error [⟨[], "Expected object"⟩]

/-! ## API client (src/api/client.ts) -/

/-- Failure modes of a client call: `handleError` throws on a non-2xx
response with a message built from the status, and `parseJson` lets a
ZodError of the schema escape on a malformed body. -/
inductive ClientError where
  | http (status : ℕ) (message : String)
  | malformed (issues : List ZodIssue)
deriving Repr, DecidableEq

/-- Whether `response.ok` holds, that is the HTTP status is in the 2xx range. -/
def responseOk (status : ℕ) : Bool :=
  decide (200 ≤ status ∧ status < 300)

/-- Model of `initRecording` from src/api/client.ts, abstracted over the
response delivered by `fetch`: on a non-2xx status `handleError` throws
`Request failed (status)` (the body text suffix is not modelled); otherwise
`parseJson` validates the body against `initRecordingResponseSchema`. -/
def initRecording (status : ℕ) (body : Json) :
    Except ClientError InitRecordingResponse :=
  if responseOk status then
    match initRecordingResponseSchema body with
    | .ok r => .ok r
    | .error is => .error (.malformed is)
  else
    .error (.http status s!"Request failed ({status})")

/-- Model of `fetchRecordingStatus` from src/api/client.ts, abstracted over
the response delivered by `fetch`. -/
def fetchRecordingStatus (status : ℕ) (body : Json) :
    Except ClientError RecordingStatusResponse :=
  if responseOk status then
    match recordingStatusSchema body with
    | .ok r => .ok r
    | .error is => .error (.malformed is)
  else
    .error (.http status s!"Request failed ({status})")

/-! ## Upload transport (src/upload/uploadVideo.ts) -/

/-- Rejection reasons of the promise returned by `uploadVideo`:
`Error("Upload failed with status N")` from the non-2xx branch of `onload`,
`Error("Network error during upload")` from `onerror`,
`DOMException("Upload aborted", "AbortError")` from `onabort`, and an
arbitrary thrown value from a synchronous `xhr.send` failure. -/
inductive Reason where
  | serverRejected (status : ℕ)
  | networkError
  | abortError
  | thrown (msg : String)
deriving Repr, DecidableEq

/-- Settlements of the promise returned by `uploadVideo`. -/
inductive Settlement where
  | resolved
  | rejected (r : Reason)
deriving Repr, DecidableEq

/-- Events delivered to the handlers installed by `uploadVideo`, in the
order the platform fires them during one transfer.  A cancellation observed
mid-transfer surfaces as `abortEvt` (the abort listener on the signal calls
`xhr.abort()` while the request is not DONE). -/
inductive XhrEvent where
  | load (status : ℕ)
  | errorEvt
  | abortEvt
  | sendThrow (msg : String)
  | progress (lengthComputable : Bool) (loaded total : ℕ)
deriving Repr, DecidableEq

/-- Settlement an event would produce on an unsettled promise: the `onload`
handler resolves iff `xhr.status >= 200 && xhr.status < 300` and otherwise
rejects with the status; `onerror`, `onabort` and a `send` throw reject via
`rejectOnce`; progress events never settle. -/
def eventSettlement : XhrEvent → Option Settlement
  | .load s =>
      some (if 200 ≤ s ∧ s < 300 then .resolved
            else .rejected (.serverRejected s))
  | .errorEvt => some (.rejected .networkError)
  | .abortEvt => some (.rejected .abortError)
  | .sendThrow m => some (.rejected (.thrown m))
  | .progress _ _ _ => none

/-- One handler invocation over the `settled` flag: every settling handler of
the source first checks `settled` and returns if it is already set
(`onload` checks it inline, the others go through `rejectOnce`). -/
def settleStep (st : Option Settlement) (e : XhrEvent) : Option Settlement :=
  match st with
  | some s => some s
  | none => eventSettlement e

/-- Settlement of the promise after a list of handler events. -/
def runSettle (events : List XhrEvent) : Option Settlement :=
  events.foldl settleStep none

/-- Value passed to `onProgress` by the `upload.onprogress` handler: only
events with `lengthComputable` emit, and the emitted fraction is
`event.total > 0 ? event.loaded / event.total : 0`.  The model assumes an
`onProgress` callback was supplied, as the orchestrator always does. -/
def progressEmit : XhrEvent → Option ℚ
  | .progress true loaded total =>
      some (if 0 < total then (loaded : ℚ) / (total : ℚ) else 0)
  | _ => none

/-- List of fractions delivered to `onProgress` during a run. -/
def emittedProgress (events : List XhrEvent) : List ℚ :=
  events.filterMap progressEmit

/-- Length-computable progress events of a run, as (loaded, total) pairs. -/
def progressPairs (events : List XhrEvent) : List (ℕ × ℕ) :=
  events.filterMap fun e =>
    match e with
    | .progress true loaded total => some (loaded, total)
    | _ => none

/-- Fraction the handler computes for one length-computable progress event. -/
def fracOf (p : ℕ × ℕ) : ℚ :=
  if 0 < p.2 then (p.1 : ℚ) / (p.2 : ℚ) else 0

/-! ## Lifecycle orchestrator (src/unnamed/part_001, UploadScreen) -/

/-- States of the `UploadState` union of the UploadScreen.  The union has no
separate cancelled state; every failure path, cancellation included, uses
`error`. -/
inductive UState where
  | idle | init | uploading | notifying | done | error
deriving Repr, DecidableEq

/-- Network calls the flow can issue, in the order of the source. -/
inductive CallTag where
  | callInit | callUpload | callComplete
deriving Repr, DecidableEq

/-- Request body built for `initRecording` (the object literal at the
`initMutate` call site). -/
structure InitRequest where
  fileName : String
  contentType : String
  sizeBytes : ℕ
  durationSec : Option ℤ
  stepMarkersSec : Option (List ℚ)
deriving Repr, DecidableEq

/-- JavaScript `Math.round` on a rational. -/
def jsRound (q : ℚ) : ℤ :=
  ⌊q + 1 / 2⌋

/-- Characters after the last slash of a URI, as the split-and-pop of the
source computes. -/
def lastComponent (cs : List Char) : List Char :=
  cs.foldl (fun acc c => if c = '/' then [] else acc ++ [c]) []

/-- File name derivation of the source: the last slash-separated component
of the video URI, with the default name recording.mp4 when that component
is empty (falsy). -/
def fileNameOf (videoUri : String) : String :=
  let lc := lastComponent videoUri.data
  if lc.isEmpty then "recording.mp4" else String.mk lc

/-- Request construction at the `initMutate` call site:
`durationSec: durationSec ? Math.round(durationSec) : undefined` and
`stepMarkersSec: markers.length ? markers : undefined`.  The duration is an
`Option (Option Rat)`: `none` is `undefined`, `some none` is NaN (both are
falsy), `some (some q)` is the number `q` (falsy exactly when `q = 0`). -/
def buildInitRequest (fileName contentType : String) (sizeBytes : ℕ)
    (duration : Option (Option ℚ)) (markers : List ℚ) : InitRequest :=
  { fileName := fileName
    contentType := contentType
    sizeBytes := sizeBytes
    durationSec :=
      match duration with
      | some (some q) => if q = 0 then none else some (jsRound q)
      | _ => none
    stepMarkersSec :=
      if markers.length = 0 then none else some markers }

/-- Environment of one `startUploadFlow` run: the inputs of the screen and
the outcome each external call would have, were it issued.  `fileSize = 0`
covers both a missing and a zero `info.size`, which the source treats alike
(`!info.size`).  The upload outcome is a `Settlement` of the transport model;
a cancellation raised while the transfer is in flight makes it
`rejected abortError`. -/
structure FlowEnv where
  videoUri : String
  contentType : String
  duration : Option (Option ℚ)
  markers : List ℚ
  fileExists : Bool
  fileSize : ℕ
  initResult : Except String InitRecordingResponse
  uploadResult : Settlement
  completeResult : Except String Unit

/-- Message recovered by the catch block for each upload rejection:
`err instanceof Error` holds for every reason (DOMException included), so
`err.message` is surfaced. -/
def reasonMessage : Reason → String
  | .serverRejected s => s!"Upload failed with status {s}"
  | .networkError => "Network error during upload"
  | .abortError => "Upload aborted"
  | .thrown m => m

/-- Observable result of one `startUploadFlow` run. -/
structure FlowResult where
  state : UState
  error : Option String
  recordingId : Option String
  calls : List CallTag
  request : Option InitRequest
deriving Repr, DecidableEq

/-- Model of `startUploadFlow`: guard on a missing video, file inspection,
init request, upload transfer, completion notification, with the single
catch block mapping any thrown error to the `error` state.  The `calls`
field records the network calls issued, in order. -/
def startUploadFlow (env : FlowEnv) : FlowResult :=
  if env.videoUri = "" then
    { state := .error
      error := some "Missing video to upload."
      recordingId := none
      calls := []
      request := none }
  else if env.fileExists = false ∨ env.fileSize = 0 then
    { state := .error
      error := some "Could not read video file."
      recordingId := none
      calls := []
      request := none }
  else
    let req := buildInitRequest (fileNameOf env.videoUri) env.contentType
      env.fileSize env.duration env.markers
    match env.initResult with
    | .error e =>
        { state := .error
          error := some e
          recordingId := none
          calls := [.callInit]
          request := some req }
    | .ok initResp =>
        match env.uploadResult with
        | .rejected r =>
            { state := .error
              error := some (reasonMessage r)
              recordingId := some initResp.recordingId
              calls := [.callInit, .callUpload]
              request := some req }
        | .resolved =>
            match env.completeResult with
            | .error e =>
                { state := .error
                  error := some e
                  recordingId := some initResp.recordingId
                  calls := [.callInit, .callUpload, .callComplete]
                  request := some req }
            | .ok _ =>
                { state := .done
                  error := none
                  recordingId := some initResp.recordingId
                  calls := [.callInit, .callUpload, .callComplete]
                  request := some req }

/-! ## Status poller (ResultScreen, second fragment of src/upload/uploadVideo.ts) -/

/-- The `refetchInterval` callback of the ResultScreen query, verbatim: with
no data yet it returns the configured interval; with data it returns `false`
(here `none`) exactly on a terminal `COMPLETED` / `FAILED` status and the
interval otherwise. -/
def refetchInterval (pollIntervalMs : ℕ)
    (queryData : Option RecordingStatusResponse) : Option ℕ :=
  match queryData with
  | none => some pollIntervalMs
  | some d =>
      if d.status = RecStatus.COMPLETED ∨ d.status = RecStatus.FAILED then none
      else some pollIntervalMs

/-- Result of one status request tick: a validated response or a request
failure (the error detail is irrelevant to the poller). -/
abbrev TickResult := Except Unit RecordingStatusResponse

/-- Data held by the query after a tick: a success replaces the data, a
failed tick keeps the previous data (the query library retains the last
successful response across a failed background refetch). -/
def nextData (data : Option RecordingStatusResponse) (t : TickResult) :
    Option RecordingStatusResponse :=
  match t with
  | .ok r => some r
  | .error _ => data

/-- Driver for the interval refetching the ResultScreen configures: on each
tick a request is issued only while `refetchInterval` applied to the current
data returns a number; the issued requests are returned in order.  The list
argument supplies the outcome each tick would have, were it issued. -/
def pollRun (pollIntervalMs : ℕ) (data : Option RecordingStatusResponse) :
    List TickResult → List TickResult
  | [] => []
  | t :: ts =>
      match refetchInterval pollIntervalMs data with
      | none => []
      | some _ => t :: pollRun pollIntervalMs (nextData data t) ts

/-! ## Marker parameter parsing (second fragment of src/api/schemas.ts) -/

/-- Raw route parameter as typed in the source: `string | string[]`. -/
abbrev RawParam := String ⊕ List String

/-- JavaScript truthiness test `!raw` on a present parameter: the empty
string is falsy, every array (even the empty one) is truthy. -/
def rawParamFalsy : RawParam → Bool
  | .inl s => s = ""
  | .inr _ => false

/-- Value selected by `Array.isArray(raw) ? raw[0] : raw`; `none` models the
`undefined` read off an empty array. -/
def headParam : RawParam → Option String
  | .inl s => some s
  | .inr l => l.head?

/-- Model of `parseMarkersParam`, abstracted over the two JavaScript
builtins it uses: `jsonParse` models `JSON.parse` (`none` for a thrown
SyntaxError, which the function catches; `JSON.parse(undefined)` always
throws), and `toNumber` models `Number(item)` on a parsed JSON value
(`none` for NaN).  A missing or falsy parameter, a parse failure, and a
parsed value that is not an array all yield `[]`; otherwise the entries are
converted and the NaN ones are filtered out. -/
def parseMarkersParam (jsonParse : String → Option Json)
    (toNumber : Json → Option ℚ) (raw : Option RawParam) : List ℚ :=
  match raw with
  | none => []
  | some r =>
      if rawParamFalsy r then []
      else
        match headParam r with
        | none => []
        | some v =>
            match jsonParse v with
            | none => []
            | some (Json.arr xs) => xs.filterMap toNumber
            | some _ => []

/-! ## Helper lemmas for the transport event semantics -/

lemma foldl_settleStep_some (events : List XhrEvent) (s : Settlement) :
    events.foldl settleStep (some s) = some s := by
  induction events with
  | nil => rfl
  | cons e rest ih => simpa [settleStep] using ih

lemma runSettle_head (events : List XhrEvent) :
    runSettle events = (events.filterMap eventSettlement).head? := by
  induction events with
  | nil => rfl
  | cons e rest ih =>
      cases h : eventSettlement e with
      | none =>
          simpa [runSettle, List.foldl_cons, settleStep, h, List.filterMap_cons]
            using ih
      | some s =>
          simp [runSettle, List.foldl_cons, settleStep, h, List.filterMap_cons,
            foldl_settleStep_some]

lemma emittedProgress_eq_map (events : List XhrEvent) :
    emittedProgress events = (progressPairs events).map fracOf := by
  induction events with
  | nil => rfl
  | cons e rest ih =>
      cases e with
      | progress lc loaded total =>
          cases lc with
          | true =>
              simp [emittedProgress, progressPairs, List.filterMap_cons,
                progressEmit, fracOf] at ih ⊢
              exact ih
          | false =>
              simpa [emittedProgress, progressPairs, List.filterMap_cons,
                progressEmit] using ih
      | load s =>
          simpa [emittedProgress, progressPairs, List.filterMap_cons,
            progressEmit] using ih
      | errorEvt =>
          simpa [emittedProgress, progressPairs, List.filterMap_cons,
            progressEmit] using ih
      | abortEvt =>
          simpa [emittedProgress, progressPairs, List.filterMap_cons,
            progressEmit] using ih
      | sendThrow m =>
          simpa [emittedProgress, progressPairs, List.filterMap_cons,
            progressEmit] using ih

lemma chain_fracOf (T : ℕ) :
    ∀ ps : List (ℕ × ℕ), (∀ p ∈ ps, p.2 = T) →
      List.Chain' (fun p q => p.1 ≤ q.1) ps →
      List.Chain' (fun a b => a ≤ b) (ps.map fracOf)
  | [], _, _ => by simp
  | [p], _, _ => by simp
  | p :: q :: rest, hT, hmono => by
      rw [List.map_cons, List.map_cons, List.chain'_cons]
      rw [List.chain'_cons] at hmono
      refine ⟨?_, ?_⟩
      · have hp2 : p.2 = T := hT p (by simp)
        have hq2 : q.2 = T := hT q (by simp)
        by_cases hpos : 0 < T
        · have : (0 : ℚ) < (T : ℚ) := by exact_mod_cast hpos
          simp only [fracOf, hp2, hq2, if_pos hpos]
          exact (div_le_div_iff_of_pos_right this).mpr (by exact_mod_cast hmono.1)
        · simp [fracOf, hp2, hq2, hpos]
      · have := chain_fracOf T (q :: rest)
          (fun r hr => hT r (List.mem_cons_of_mem p hr)) hmono.2
        simpa using this

/-- Claim C8: the promise returned by `uploadVideo` settles exactly once.
Every settling handler of the source (the inline check in `onload`,
`rejectOnce` for `onerror`, `onabort` and a throwing `send`) observes the
`settled` flag, so for every interleaving of handler events the delivered
settlement is exactly that of the first settling event of the sequence and
all later events are ignored. -/
theorem C8_uploadVideo_settles_once (events : List XhrEvent) :
    runSettle events = (events.filterMap eventSettlement).head? :=
  runSettle_head events

/-- Claim C4: on its first settling event, the transfer resolves iff the
status is 2xx; any other status rejects with a rejected-by-server error
carrying that status; a transport failure rejects with the network-failure
error, a reason distinct from every rejected-by-server one. -/
theorem C4_resolve_iff_2xx (pre : List XhrEvent) (s : ℕ)
    (hpre : ∀ e ∈ pre, eventSettlement e = none) :
    (runSettle (pre ++ [XhrEvent.load s]) = some Settlement.resolved ↔
      200 ≤ s ∧ s < 300) ∧
    (¬(200 ≤ s ∧ s < 300) →
      runSettle (pre ++ [XhrEvent.load s]) =
        some (Settlement.rejected (Reason.serverRejected s))) ∧
    runSettle (pre ++ [XhrEvent.errorEvt]) =
      some (Settlement.rejected Reason.networkError) ∧
    (∀ n, Reason.networkError ≠ Reason.serverRejected n) := by
  have hnil : pre.filterMap eventSettlement = [] :=
    List.filterMap_eq_nil_iff.mpr hpre
  refine ⟨?_, ?_, ?_, ?_⟩
  · rw [runSettle_head, List.filterMap_append, hnil]
    by_cases h2 : 200 ≤ s ∧ s < 300
    · simp [eventSettlement, h2]
    · simp [eventSettlement, h2]
  · intro h2
    rw [runSettle_head, List.filterMap_append, hnil]
    simp [eventSettlement, h2]
  · rw [runSettle_head, List.filterMap_append, hnil]
    simp [eventSettlement]
  · intro n h
    exact Reason.noConfusion h

/-- Concrete run for claim C4: one length-computable progress event followed
by a 500 response rejects with the rejected-by-server reason carrying 500. -/
theorem C4_resolve_iff_2xx_witness :
    runSettle ([XhrEvent.progress true 1 2] ++ [XhrEvent.load 500]) =
      some (Settlement.rejected (Reason.serverRejected 500)) := by
  have h := C4_resolve_iff_2xx [XhrEvent.progress true 1 2] 500 (by decide)
  exact h.2.1 (by decide)

/-- Claim C5: under the platform guarantees on one XMLHttpRequest upload
(a single constant total `T`, `loaded` at most the total and non-decreasing
across progress events), every fraction passed to `onProgress` lies in
[0, 1], the emitted sequence is non-decreasing, each fraction is the bytes
sent over the total when the total is known (positive), nothing is emitted
when no event is length-computable, and on a successful transfer whose last
length-computable event reports `loaded = total` with a known total, the
final emitted value is 1. -/
theorem C5_progress_monotone_bounded (events : List XhrEvent) (T : ℕ)
    (hT : ∀ p ∈ progressPairs events, p.2 = T)
    (hle : ∀ p ∈ progressPairs events, p.1 ≤ p.2)
    (hmono : List.Chain' (fun p q => p.1 ≤ q.1) (progressPairs events)) :
    (∀ v ∈ emittedProgress events, 0 ≤ v ∧ v ≤ 1) ∧
    List.Chain' (fun a b => a ≤ b) (emittedProgress events) ∧
    (0 < T → emittedProgress events
      = (progressPairs events).map (fun p => (p.1 : ℚ) / (T : ℚ))) ∧
    (progressPairs events = [] → emittedProgress events = []) ∧
    (runSettle events = some Settlement.resolved → 0 < T →
      (progressPairs events).getLast? = some (T, T) →
      (emittedProgress events).getLast? = some 1) := by
  have hmap := emittedProgress_eq_map events
  refine ⟨?_, ?_, ?_, ?_, ?_⟩
  · rw [hmap]
    intro v hv
    rcases List.mem_map.mp hv with ⟨p, hp, rfl⟩
    by_cases hpos : 0 < p.2
    · have hc : (0 : ℚ) < (p.2 : ℚ) := by exact_mod_cast hpos
      constructor
      · simp only [fracOf, if_pos hpos]
        exact div_nonneg (by positivity) hc.le
      · simp only [fracOf, if_pos hpos]
        exact (div_le_one hc).mpr (by exact_mod_cast hle p hp)
    · simp [fracOf, hpos]
  · rw [hmap]
    exact chain_fracOf T (progressPairs events) hT hmono
  · intro hTpos
    rw [hmap]
    refine List.map_congr_left ?_
    intro p hp
    simp [fracOf, hT p hp, hTpos]
  · intro hps
    rw [hmap, hps]
    rfl
  · intro _ hTpos hlast
    rw [hmap, List.getLast?_map, hlast]
    have hx : (T : ℚ) ≠ 0 := by exact_mod_cast hTpos.ne'
    simp [fracOf, hTpos, div_self hx]

/-- Concrete run for claim C5: progress events 30/100, 70/100, 100/100 and
a 200 response emit the fractions 3/10, 7/10, 1, ending at 1. -/
theorem C5_progress_monotone_bounded_witness :
    emittedProgress [XhrEvent.progress true 30 100,
      XhrEvent.progress true 70 100, XhrEvent.progress true 100 100,
      XhrEvent.load 200]
      = [(30 : ℚ) / 100, (70 : ℚ) / 100, (100 : ℚ) / 100] ∧
    (emittedProgress [XhrEvent.progress true 30 100,
      XhrEvent.progress true 70 100, XhrEvent.progress true 100 100,
      XhrEvent.load 200]).getLast? = some 1 := by
  have h := C5_progress_monotone_bounded [XhrEvent.progress true 30 100,
    XhrEvent.progress true 70 100, XhrEvent.progress true 100 100,
    XhrEvent.load 200] 100 (by decide) (by decide)
    (by norm_num [progressPairs, List.filterMap_cons, List.chain'_cons])
  refine ⟨?_, h.2.2.2.2 (by decide) (by decide) (by decide)⟩
  have h3 := h.2.2.1 (by decide)
  simpa [progressPairs, List.filterMap_cons] using h3

/-! ## Claims about the orchestrator -/

/-- Claim C1: in every run of `startUploadFlow` the call trace is an initial
segment of init, upload, complete — each network call is attempted at most
once and strictly in that order.  When the upload transfer does not resolve,
the completion notification is never issued and the run ends in the failed
terminal state; when the transfer is rejected by the server with status 500
and the transfer was attempted, the recorded error is the
rejected-by-server message for 500. -/
theorem C1_flow_order_at_most_once (env : FlowEnv) :
    ((startUploadFlow env).calls = [] ∨
     (startUploadFlow env).calls = [CallTag.callInit] ∨
     (startUploadFlow env).calls = [CallTag.callInit, CallTag.callUpload] ∨
     (startUploadFlow env).calls =
       [CallTag.callInit, CallTag.callUpload, CallTag.callComplete]) ∧
    (env.uploadResult ≠ Settlement.resolved →
      CallTag.callComplete ∉ (startUploadFlow env).calls ∧
      (startUploadFlow env).state = UState.error) ∧
    (env.uploadResult = Settlement.rejected (Reason.serverRejected 500) →
      CallTag.callUpload ∈ (startUploadFlow env).calls →
      (startUploadFlow env).error = some "Upload failed with status 500") := by
  unfold startUploadFlow
  split
  · simp
  · split
    · simp
    · cases hinit : env.initResult with
      | error e => simp
      | ok initResp =>
          cases hup : env.uploadResult with
          | rejected rsn =>
              refine ⟨by simp, fun _ => by simp, fun h500 _ => ?_⟩
              cases h500
              rfl
          | resolved =>
              cases hc : env.completeResult with
              | error e =>
                  exact ⟨by simp, fun hne => absurd rfl hne,
                    fun h500 => Settlement.noConfusion h500⟩
              | ok u =>
                  exact ⟨by simp, fun hne => absurd rfl hne,
                    fun h500 => Settlement.noConfusion h500⟩

/-- Flow environment in which every step would succeed but the server
rejects the transfer with status 500. -/
def envUpload500 : FlowEnv :=
  { videoUri := "file:///tmp/v.mp4"
    contentType := "video/mp4"
    duration := none
    markers := []
    fileExists := true
    fileSize := 5
    initResult := .ok ⟨"r1", "https://x/r1", none⟩
    uploadResult := .rejected (.serverRejected 500)
    completeResult := .ok () }

/-- Concrete run for claim C1: with the transfer rejected at status 500 the
completion call is never issued and the run ends in the failed terminal
state with the rejected-by-server message. -/
theorem C1_flow_order_at_most_once_witness :
    CallTag.callComplete ∉ (startUploadFlow envUpload500).calls ∧
    (startUploadFlow envUpload500).state = UState.error ∧
    (startUploadFlow envUpload500).error =
      some "Upload failed with status 500" := by
  have h := C1_flow_order_at_most_once envUpload500
  exact ⟨(h.2.1 (by decide)).1, (h.2.1 (by decide)).2, h.2.2 rfl (by decide)⟩

/-- Flow environment identical to `envUpload500` except that the transfer is
aborted by the cancellation signal while in flight. -/
def envCancelled : FlowEnv :=
  { envUpload500 with uploadResult := .rejected .abortError }

/-- Claim C2 fails as stated on the code: the `UploadState` union of the
UploadScreen has no Cancelled state, so a run cancelled mid-upload does not
end in a distinct Cancelled terminal state — it ends in the same generic
`error` terminal state that a server-rejected (status 500) run ends in, and
the screen surfaces it through the same error banner and retry path. -/
theorem C2_cancel_counterexample :
    (startUploadFlow envCancelled).state = UState.error ∧
    (startUploadFlow envCancelled).state = (startUploadFlow envUpload500).state := by
  exact ⟨rfl, rfl⟩

/-- Claim C2 amended: when the cancellation signal is raised while the
transfer is in flight, the abort handler settles the transfer with the
distinct cancelled outcome (`AbortError`, a reason different from every
server rejection and from the network failure), and no completion
notification is ever issued for that attempt; the orchestrator however ends
in its generic `error` terminal state — there is no Cancelled state — with
the abort message recorded when the transfer was attempted. -/
theorem C2_cancel_aborts_without_completion (env : FlowEnv)
    (h : env.uploadResult = Settlement.rejected Reason.abortError) :
    eventSettlement XhrEvent.abortEvt =
      some (Settlement.rejected Reason.abortError) ∧
    (∀ n, Reason.abortError ≠ Reason.serverRejected n) ∧
    Reason.abortError ≠ Reason.networkError ∧
    CallTag.callComplete ∉ (startUploadFlow env).calls ∧
    (startUploadFlow env).state = UState.error ∧
    (CallTag.callUpload ∈ (startUploadFlow env).calls →
      (startUploadFlow env).error = some "Upload aborted") := by
  refine ⟨rfl, fun n hn => Reason.noConfusion hn, fun hn => Reason.noConfusion hn,
    ?_, ?_, ?_⟩
  · unfold startUploadFlow
    split
    · simp
    · split
      · simp
      · cases hinit : env.initResult with
        | error e => simp
        | ok initResp => rw [h]; simp
  · unfold startUploadFlow
    split
    · rfl
    · split
      · rfl
      · cases hinit : env.initResult with
        | error e => rfl
        | ok initResp => rw [h]
  · unfold startUploadFlow
    split
    · simp
    · split
      · simp
      · cases hinit : env.initResult with
        | error e => simp
        | ok initResp => rw [h]; intro _; rfl

/-- Concrete run for the amended claim C2: the cancelled environment ends in
the `error` state with the abort message and without a completion call. -/
theorem C2_cancel_aborts_without_completion_witness :
    CallTag.callComplete ∉ (startUploadFlow envCancelled).calls ∧
    (startUploadFlow envCancelled).error = some "Upload aborted" := by
  have h := C2_cancel_aborts_without_completion envCancelled rfl
  exact ⟨h.2.2.2.1, h.2.2.2.2.2 (by decide)⟩

lemma buildInitRequest_optional_fields (fn ct : String) (sz : ℕ)
    (dur : Option (Option ℚ)) (mk : List ℚ) :
    ((buildInitRequest fn ct sz dur mk).stepMarkersSec ≠ none ↔ mk ≠ []) ∧
    (mk ≠ [] → (buildInitRequest fn ct sz dur mk).stepMarkersSec = some mk) ∧
    ((buildInitRequest fn ct sz dur mk).durationSec ≠ none ↔
      ∃ q : ℚ, dur = some (some q) ∧ q ≠ 0) ∧
    (∀ q : ℚ, dur = some (some q) → q ≠ 0 →
      (buildInitRequest fn ct sz dur mk).durationSec = some (jsRound q)) := by
  refine ⟨?_, ?_, ?_, ?_⟩
  · by_cases hmk : mk.length = 0
    · simp [buildInitRequest, hmk, List.length_eq_zero.mp hmk]
    · have : mk ≠ [] := fun hn => hmk (by simp [hn])
      simp [buildInitRequest, hmk, this]
  · intro hmk
    have : ¬mk.length = 0 := fun hn => hmk (List.length_eq_zero.mp hn)
    simp [buildInitRequest, this]
  · cases dur with
    | none => simp [buildInitRequest]
    | some d =>
        cases d with
        | none => simp [buildInitRequest]
        | some q =>
            by_cases hq : q = 0
            · simp [buildInitRequest, hq]
            · simp [buildInitRequest, hq]
  · intro q hdur hq
    cases hdur
    simp [buildInitRequest, hq]

/-- Claim C10: in every run of `startUploadFlow` that builds an init
request, `stepMarkersSec` is present iff the marker list is non-empty (and
then carries the markers verbatim), and `durationSec` is present iff the
duration is an actual non-zero number (NaN and `undefined` are falsy and
omitted), carrying the rounded duration when present. -/
theorem C10_optional_init_fields (env : FlowEnv) (r : InitRequest)
    (h : (startUploadFlow env).request = some r) :
    (r.stepMarkersSec ≠ none ↔ env.markers ≠ []) ∧
    (env.markers ≠ [] → r.stepMarkersSec = some env.markers) ∧
    (r.durationSec ≠ none ↔ ∃ q : ℚ, env.duration = some (some q) ∧ q ≠ 0) ∧
    (∀ q : ℚ, env.duration = some (some q) → q ≠ 0 →
      r.durationSec = some (jsRound q)) := by
  have hr : r = buildInitRequest (fileNameOf env.videoUri) env.contentType
      env.fileSize env.duration env.markers := by
    unfold startUploadFlow at h
    split at h
    · exact absurd h (by simp)
    · split at h
      · exact absurd h (by simp)
      · cases hinit : env.initResult with
        | error e =>
            rw [hinit] at h
            simpa using h.symm
        | ok initResp =>
            rw [hinit] at h
            cases hup : env.uploadResult with
            | rejected rsn =>
                rw [hup] at h
                simpa using h.symm
            | resolved =>
                rw [hup] at h
                cases hc : env.completeResult with
                | error e => rw [hc] at h; simpa using h.symm
                | ok u => rw [hc] at h; simpa using h.symm
  rw [hr]
  exact buildInitRequest_optional_fields _ _ _ _ _

/-- Flow environment with two markers and a fractional duration. -/
def envMarkers : FlowEnv :=
  { envUpload500 with
      uploadResult := .resolved
      duration := some (some (7 / 2))
      markers := [1, 4] }

/-- Concrete run for claim C10: with markers [1, 4] and duration 3.5 the
request carries `stepMarkersSec = [1, 4]` and `durationSec = 4` (3.5 rounds
up, as `Math.round` does). -/
theorem C10_optional_init_fields_witness :
    ∃ r : InitRequest, (startUploadFlow envMarkers).request = some r ∧
      r.stepMarkersSec = some [1, 4] ∧ r.durationSec = some 4 := by
  refine ⟨buildInitRequest (fileNameOf envMarkers.videoUri)
    envMarkers.contentType envMarkers.fileSize envMarkers.duration
    envMarkers.markers, rfl, ?_, ?_⟩
  · have h := C10_optional_init_fields envMarkers _ rfl
    exact h.2.1 (by decide)
  · have h := C10_optional_init_fields envMarkers _ rfl
    have := h.2.2.2 (7 / 2) rfl (by norm_num)
    rw [this]
    norm_num [jsRound]

/-! ## Claims about the status poller -/

/-- Claim C3: once the first terminal (`COMPLETED` / `FAILED`) status has
been received, no further status request is ever scheduled — the tick that
delivered it is the last issued request, and with terminal data no request
is issued at all; a transient request failure does not stop polling — the
failed tick is swallowed (the retained data is unchanged) and polling
continues with the next interval tick. -/
theorem C3_poll_terminal_stop_transient_continue (ivl : ℕ)
    (r : RecordingStatusResponse) (data : Option RecordingStatusResponse)
    (ts ts₂ : List TickResult)
    (hterm : r.status = RecStatus.COMPLETED ∨ r.status = RecStatus.FAILED) :
    pollRun ivl (some r) ts = [] ∧
    (refetchInterval ivl data ≠ none →
      pollRun ivl data (Except.error () :: ts₂) =
        Except.error () :: pollRun ivl data ts₂) ∧
    (refetchInterval ivl data ≠ none →
      pollRun ivl data (Except.ok r :: ts₂) = [Except.ok r]) := by
  have hstop : refetchInterval ivl (some r) = none := by
    simp [refetchInterval, hterm]
  refine ⟨?_, ?_, ?_⟩
  · cases ts with
    | nil => rfl
    | cons t rest => simp [pollRun, hstop]
  · intro hgo
    cases hri : refetchInterval ivl data with
    | none => exact absurd hri hgo
    | some x => simp [pollRun, hri, nextData]
  · intro hgo
    cases hri : refetchInterval ivl data with
    | none => exact absurd hri hgo
    | some x =>
        have htail : pollRun ivl (some r) ts₂ = [] := by
          cases ts₂ with
          | nil => rfl
          | cons t rest => simp [pollRun, hstop]
        simp [pollRun, hri, nextData, htail]

/-- Sample non-terminal status response. -/
def stProcessing : RecordingStatusResponse :=
  ⟨"r1", RecStatus.PROCESSING, none, none⟩

/-- Sample terminal status response. -/
def stCompleted : RecordingStatusResponse :=
  ⟨"r1", RecStatus.COMPLETED, none, some []⟩

/-- Concrete run for claim C3: with PROCESSING data, a transient failure is
swallowed and polling continues; the next tick delivers COMPLETED and is the
last issued request — the trailing tick is never issued. -/
theorem C3_poll_terminal_stop_transient_continue_witness :
    pollRun 3000 (some stProcessing)
      [Except.error (), Except.ok stCompleted, Except.ok stProcessing]
      = [Except.error (), Except.ok stCompleted] := by
  have h₁ := C3_poll_terminal_stop_transient_continue 3000 stCompleted
    (some stProcessing) [] [Except.ok stCompleted, Except.ok stProcessing]
    (Or.inl rfl)
  have h₂ := C3_poll_terminal_stop_transient_continue 3000 stCompleted
    (some stProcessing) [] [Except.ok stProcessing] (Or.inl rfl)
  have step₁ : pollRun 3000 (some stProcessing)
      [Except.error (), Except.ok stCompleted, Except.ok stProcessing]
      = Except.error () :: pollRun 3000 (some stProcessing)
          [Except.ok stCompleted, Except.ok stProcessing] := h₁.2.1 (by decide)
  have step₂ : pollRun 3000 (some stProcessing)
      [Except.ok stCompleted, Except.ok stProcessing]
      = [Except.ok stCompleted] := h₂.2.2 (by decide)
  rw [step₁, step₂]

/-! ## Claims about response validation -/

lemma parseStringField_ok {fields : List (String × Json)} {name s : String}
    (h : parseStringField fields name = .ok s) :
    lookupField fields name = some (Json.str s) := by
  unfold parseStringField at h
  split at h
  · exact Except.noConfusion h
  · rename_i s₂ hl
    cases h
    exact hl
  · exact Except.noConfusion h

lemma parseUrlField_ok {fields : List (String × Json)} {name s : String}
    (h : parseUrlField fields name = .ok s) :
    lookupField fields name = some (Json.str s) ∧ isAbsoluteUrl s = true := by
  unfold parseUrlField at h
  split at h
  · exact Except.noConfusion h
  · rename_i s₂ hl
    split at h
    · rename_i hu
      cases h
      exact ⟨hl, hu⟩
    · exact Except.noConfusion h
  · exact Except.noConfusion h

lemma parseStatusField_ok {fields : List (String × Json)} {st : RecStatus}
    (h : parseStatusField fields = .ok st) :
    ∃ s, lookupField fields "status" = some (Json.str s) ∧
      statusOfString s = some st := by
  unfold parseStatusField at h
  split at h
  · exact Except.noConfusion h
  · rename_i s₂ hl
    split at h
    · rename_i st₂ hs
      cases h
      exact ⟨s₂, hl, hs⟩
    · exact Except.noConfusion h
  · exact Except.noConfusion h

lemma initSchema_ok {j : Json} {r : InitRecordingResponse}
    (h : initRecordingResponseSchema j = .ok r) :
    ∃ fs, j = Json.obj fs ∧
      lookupField fs "recordingId" = some (Json.str r.recordingId) ∧
      lookupField fs "uploadUrl" = some (Json.str r.uploadUrl) ∧
      isAbsoluteUrl r.uploadUrl = true := by
  unfold initRecordingResponseSchema at h
  split at h
  · rename_i fields
    refine ⟨fields, rfl, ?_⟩
    split at h
    · rename_i rid url hdrs h₁ h₂ h₃
      cases h
      have hu := parseUrlField_ok h₂
      exact ⟨parseStringField_ok h₁, hu.1, hu.2⟩
    · exact Except.noConfusion h
  · exact Except.noConfusion h

lemma statusSchema_ok {j : Json} {r : RecordingStatusResponse}
    (h : recordingStatusSchema j = .ok r) :
    ∃ fs, j = Json.obj fs ∧
      lookupField fs "recordingId" = some (Json.str r.recordingId) ∧
      ∃ s, lookupField fs "status" = some (Json.str s) ∧
        statusOfString s = some r.status := by
  unfold recordingStatusSchema at h
  split at h
  · rename_i fields
    refine ⟨fields, rfl, ?_⟩
    split at h
    · rename_i rid st err steps h₁ h₂ h₃ h₄
      cases h
      exact ⟨parseStringField_ok h₁, parseStatusField_ok h₂⟩
    · exact Except.noConfusion h
  · exact Except.noConfusion h

/-- Claim C6 fails as stated on the code: `initRecordingResponseSchema`
constrains `recordingId` only with `z.string()` — no non-emptiness
refinement — so a 2xx init response whose `recordingId` is the empty string
validates successfully.  The statement below is the negation of the claim,
exhibited at the concrete payload with `recordingId = ""` and a valid
absolute `uploadUrl`. -/
theorem C6_empty_recordingId_counterexample :
    ¬(∀ (status : ℕ) (body : Json) (r : InitRecordingResponse),
        initRecording status body = Except.ok r →
        r.recordingId ≠ "" ∧ isAbsoluteUrl r.uploadUrl = true) := by
  intro hclaim
  have h := hclaim 200
    (Json.obj [("recordingId", Json.str ""), ("uploadUrl", Json.str "https://x/r1")])
    ⟨"", "https://x/r1", none⟩ rfl
  exact h.1 rfl

/-- Claim C6 amended: a successful `initRecording` call implies the HTTP
status was 2xx and the returned `uploadUrl` parses as an absolute URL; the
returned `recordingId` is a string taken verbatim from the payload, but the
schema does not force it to be non-empty. -/
theorem C6_init_success_absolute_url (status : ℕ) (body : Json)
    (r : InitRecordingResponse)
    (h : initRecording status body = Except.ok r) :
    (200 ≤ status ∧ status < 300) ∧ isAbsoluteUrl r.uploadUrl = true := by
  unfold initRecording at h
  split at h
  · rename_i hok
    constructor
    · simpa [responseOk] using hok
    · cases hp : initRecordingResponseSchema body with
      | error is => rw [hp] at h; exact Except.noConfusion h
      | ok r₂ =>
          rw [hp] at h
          cases h
          exact (initSchema_ok hp).choose_spec.2.2.2
  · exact Except.noConfusion h

/-- Concrete successful init for the amended claim C6. -/
theorem C6_init_success_absolute_url_witness :
    isAbsoluteUrl
      (InitRecordingResponse.mk "r1" "https://x/r1" none).uploadUrl = true := by
  have h := C6_init_success_absolute_url 200
    (Json.obj [("recordingId", Json.str "r1"), ("uploadUrl", Json.str "https://x/r1")])
    ⟨"r1", "https://x/r1", none⟩ rfl
  exact h.2

/-- Claim C7: a raw backend payload failing the structural schema is
rejected with a malformed-response error carrying the validation failure
detail — an init response missing `uploadUrl` fails with a nonempty issue
list naming the `uploadUrl` path, a status response missing `status` fails
with a nonempty issue list — and a payload that validates is never coerced:
every required field of the result is present in the payload verbatim, with
its required type. -/
theorem C7_schema_rejects_malformed (fields : List (String × Json)) (j : Json)
    (r : InitRecordingResponse) (r₂ : RecordingStatusResponse) :
    (lookupField fields "uploadUrl" = none →
      ∃ is, initRecordingResponseSchema (Json.obj fields) = .error is ∧
        is ≠ [] ∧ ZodIssue.mk ["uploadUrl"] "Required" ∈ is) ∧
    (lookupField fields "status" = none →
      ∃ is, recordingStatusSchema (Json.obj fields) = .error is ∧ is ≠ []) ∧
    (initRecordingResponseSchema j = .ok r →
      ∃ fs, j = Json.obj fs ∧
        lookupField fs "recordingId" = some (Json.str r.recordingId) ∧
        lookupField fs "uploadUrl" = some (Json.str r.uploadUrl) ∧
        isAbsoluteUrl r.uploadUrl = true) ∧
    (recordingStatusSchema j = .ok r₂ →
      ∃ fs, j = Json.obj fs ∧
        lookupField fs "recordingId" = some (Json.str r₂.recordingId) ∧
        ∃ s, lookupField fs "status" = some (Json.str s) ∧
          statusOfString s = some r₂.status) := by
  refine ⟨?_, ?_, fun h => initSchema_ok h, fun h => statusSchema_ok h⟩
  · intro hmiss
    have h₂ : parseUrlField fields "uploadUrl" =
        .error ⟨["uploadUrl"], "Required"⟩ := by
      unfold parseUrlField
      rw [hmiss]
    have hres : initRecordingResponseSchema (Json.obj fields) =
        .error (issuesOf (parseStringField fields "recordingId") ++
          issuesOf (parseUrlField fields "uploadUrl") ++
          issuesOf (parseHeadersField fields)) := by
      cases h₁ : parseStringField fields "recordingId" <;>
        cases h₃ : parseHeadersField fields <;>
          simp [initRecordingResponseSchema, h₁, h₂, h₃]
    refine ⟨_, hres, ?_, ?_⟩
    · simp [h₂, issuesOf, List.append_eq_nil]
    · simp [h₂, issuesOf]
  · intro hmiss
    have h₂ : parseStatusField fields = .error ⟨["status"], "Required"⟩ := by
      unfold parseStatusField
      rw [hmiss]
    have hres : recordingStatusSchema (Json.obj fields) =
        .error (issuesOf (parseStringField fields "recordingId") ++
          issuesOf (parseStatusField fields) ++
          issuesOf (parseOptStringField fields "error") ++
          issueListOf (parseStepsField fields)) := by
      cases h₁ : parseStringField fields "recordingId" <;>
        cases h₃ : parseOptStringField fields "error" <;>
          cases h₄ : parseStepsField fields <;>
            simp [recordingStatusSchema, h₁, h₂, h₃, h₄]
    refine ⟨_, hres, ?_⟩
    simp [h₂, issuesOf, List.append_eq_nil]

/-- Concrete malformed payload for claim C7: an init response missing
`uploadUrl` surfaces the `uploadUrl` issue rather than a silently empty
result. -/
theorem C7_schema_rejects_malformed_witness :
    ∃ is, initRecordingResponseSchema
        (Json.obj [("recordingId", Json.str "r1")]) = .error is ∧
      is ≠ [] ∧ ZodIssue.mk ["uploadUrl"] "Required" ∈ is := by
  have h := C7_schema_rejects_malformed [("recordingId", Json.str "r1")]
    (Json.obj []) ⟨"r1", "https://x/r1", none⟩
    ⟨"r1", RecStatus.CREATED, none, none⟩
  exact h.1 rfl

/-! ## Claim about the marker parameter parser -/

/-- Claim C9: `parseMarkersParam` is total (it is a function into `List ℚ`,
so no input makes it throw) and for every behaviour of the `JSON.parse` and
`Number` builtins: a missing parameter, the empty string, an empty array
parameter (whose first element is `undefined`, making `JSON.parse` throw),
a JSON parse failure, and a parsed value that is not an array all yield the
empty list; on a parsed array the entries are converted with `Number` and
exactly the NaN conversions are filtered out. -/
theorem C9_parseMarkersParam_total (jsonParse : String → Option Json)
    (toNumber : Json → Option ℚ) (raw : Option RawParam) :
    (raw = none → parseMarkersParam jsonParse toNumber raw = []) ∧
    parseMarkersParam jsonParse toNumber (some (Sum.inl "")) = [] ∧
    parseMarkersParam jsonParse toNumber (some (Sum.inr [])) = [] ∧
    (∀ r v, raw = some r → headParam r = some v → jsonParse v = none →
      parseMarkersParam jsonParse toNumber raw = []) ∧
    (∀ r v j, raw = some r → headParam r = some v → jsonParse v = some j →
      (∀ xs, j ≠ Json.arr xs) →
      parseMarkersParam jsonParse toNumber raw = []) ∧
    (∀ r v xs, raw = some r → rawParamFalsy r = false → headParam r = some v →
      jsonParse v = some (Json.arr xs) →
      parseMarkersParam jsonParse toNumber raw = xs.filterMap toNumber) := by
  refine ⟨?_, rfl, rfl, ?_, ?_, ?_⟩
  · intro h
    rw [h]
    rfl
  · intro r v hraw hv hjp
    subst hraw
    by_cases hf : rawParamFalsy r
    · simp [parseMarkersParam, hf]
    · simp [parseMarkersParam, hf, hv, hjp]
  · intro r v j hraw hv hjp hnotarr
    subst hraw
    by_cases hf : rawParamFalsy r
    · simp [parseMarkersParam, hf]
    · cases j <;> simp [parseMarkersParam, hf, hv, hjp]
      next xs => exact absurd rfl (hnotarr xs)
  · intro r v xs hraw hf hv hjp
    subst hraw
    simp [parseMarkersParam, hf, hv, hjp]

/-- Fixed JSON parse used by the C9 witness: the parameter text decodes to
the array [3, "x", 7]. -/
def jsonParseW : String → Option Json :=
  fun _ => some (Json.arr [Json.num 3, Json.str "x", Json.num 7])

/-- Fixed Number coercion used by the C9 witness: numbers convert to
themselves and everything else to NaN. -/
def toNumberW : Json → Option ℚ :=
  fun j =>
    match j with
    | Json.num q => some q
    | _ => none

/-- Concrete run for claim C9: the decoded array [3, "x", 7] yields [3, 7] —
the NaN conversion of "x" is filtered out. -/
theorem C9_parseMarkersParam_total_witness :
    parseMarkersParam jsonParseW toNumberW (some (Sum.inl "[3,x,7]")) = [3, 7] := by
  have h := C9_parseMarkersParam_total jsonParseW toNumberW
    (some (Sum.inl "[3,x,7]"))
  have hrun := h.2.2.2.2.2 (Sum.inl "[3,x,7]") "[3,x,7]"
    [Json.num 3, Json.str "x", Json.num 7] rfl (by decide) rfl rfl
  rw [hrun]
  rfl
